import Mathlib

/-!
Verification of the github-actions-redis-cache action: a shallow embedding of
the compression-handler factory (src/compression/factory with backends),
the format handlers' compress/extract control flow, the Redis client
retry/connect logic, the restore-phase key lookup with restore-key fallback,
and the save-phase size guard, together with theorems settling the frozen
claims about the specification.

Strings from the TypeScript sources are embedded as `List Char`; byte blobs
are abstracted to `Nat` identifiers.  Effectful code is embedded as pure
functions that also return an ordered list of effect events, so ordering and
cleanup claims become statements about those traces.
-/

namespace RedisCache

/-- Key and path strings (JS strings, embedded as character lists). -/
abbrev Key := List Char

/-- Compression formats, from src/compression/types (enum CompressionFormat). -/
inductive CompressionFormat
  | TAR_GZIP
  | ZIP
  | GZIP
  | LZ4
deriving DecidableEq, Repr

/-- Backend preference, from the factory: type CompressionBackend = auto | native | shell. -/
inductive CompressionBackend
  | auto
  | native
  | shell
deriving DecidableEq, Repr

/-- The handler variants of the repository: the six registered in the factory
registry plus the LZ4 native handler (present in the sources, omitted from the
registry). -/
inductive HandlerId
  | tarGzipNative
  | zipNative
  | gzipNative
  | tarGzipShell
  | zipShell
  | gzipShell
  | lz4Native
deriving DecidableEq, Repr

/-- Which external command-line tools exist on the host; the outcome of the
detector probes (detectTar / detectZip / detectGzip). -/
structure ToolEnv where
  tarTool : Bool
  zipTool : Bool
  gzipTool : Bool
deriving DecidableEq, Repr

namespace HandlerId

/-- JS constructor.name of each handler class, used by filterHandlersByBackend. -/
def className : HandlerId → Key
  | tarGzipNative => ("TarGzipNativeHandler").toList
  | zipNative => ("ZipNativeHandler").toList
  | gzipNative => ("GzipNativeHandler").toList
  | tarGzipShell => ("TarGzipHandler").toList
  | zipShell => ("ZipHandler").toList
  | gzipShell => ("GzipHandler").toList
  | lz4Native => ("Lz4NativeHandler").toList

/-- The readonly format field of each handler class. -/
def format : HandlerId → CompressionFormat
  | tarGzipNative => .TAR_GZIP
  | zipNative => .ZIP
  | gzipNative => .GZIP
  | tarGzipShell => .TAR_GZIP
  | zipShell => .ZIP
  | gzipShell => .GZIP
  | lz4Native => .LZ4

/-- The readonly priority field of each handler class (tar-gzip-native.ts: 200,
zip-native.ts: 150, gzip-native declaration: 100, tar-gzip.ts: 100,
zip shell: 50, gzip shell: 25, lz4-native: 50). -/
def priority : HandlerId → Nat
  | tarGzipNative => 200
  | zipNative => 150
  | gzipNative => 100
  | tarGzipShell => 100
  | zipShell => 50
  | gzipShell => 25
  | lz4Native => 50

/-- Each handler's detect().  The native handlers return true unconditionally
(no external dependency); the shell handlers delegate to the detector for
their command.  The gzip-native body is not among the sources, but its
declaration and tests fix detect() to true, matching the other natives. -/
def detect : HandlerId → ToolEnv → Bool
  | tarGzipNative, _ => true
  | zipNative, _ => true
  | gzipNative, _ => true
  | lz4Native, _ => true
  | tarGzipShell, env => env.tarTool
  | zipShell, env => env.zipTool
  | gzipShell, env => env.gzipTool

end HandlerId

/-- List-contains-sublist search, mirroring JS String.prototype.includes. -/
def keyLeads : Key → Key → Bool
  | [], _ => true
  | _ :: _, [] => false
  | a :: as, b :: bs => a = b && keyLeads as bs

/-- Substring containment (JS msg.includes(pat)). -/
def containsSeq (pat : Key) : Key → Bool
  | [] => keyLeads pat []
  | c :: rest => keyLeads pat (c :: rest) || containsSeq pat rest

/-- The factory's handler registry (factory.ts): native handlers first, then
shell fallbacks; the LZ4 handler is not registered. -/
def handlerRegistry : List HandlerId :=
  [.tarGzipNative, .zipNative, .gzipNative, .tarGzipShell, .zipShell, .gzipShell]

/-- filterHandlersByBackend: auto keeps all, native keeps handlers whose class
name contains the text Native, shell keeps the rest. -/
def filterHandlersByBackend (handlers : List HandlerId)
    (backend : CompressionBackend) : List HandlerId :=
  match backend with
  | .auto => handlers
  | .native => handlers.filter (fun h => containsSeq (("Native").toList) h.className)
  | .shell => handlers.filter (fun h => !(containsSeq (("Native").toList) h.className))

/-- Selection errors thrown by getBestCompressionHandler, as distinct variants
(the source throws Error values with distinct messages). -/
inductive SelectErr
  | noHandlersForBackend
  | noShellTools
  | noneAvailable
deriving DecidableEq, Repr

instance {ε α : Type} [DecidableEq ε] [DecidableEq α] : DecidableEq (Except ε α) := fun x y =>
  match x, y with
  | .ok a, .ok b =>
    if h : a = b then isTrue (by rw [h]) else isFalse (by intro hc; cases hc; exact h rfl)
  | .error a, .error b =>
    if h : a = b then isTrue (by rw [h]) else isFalse (by intro hc; cases hc; exact h rfl)
  | .ok _, .error _ => isFalse (by intro hc; cases hc)
  | .error _, .ok _ => isFalse (by intro hc; cases hc)

/-- Head of the stable priority-descending sort: the first listed handler
attaining the maximum priority (the source sorts with a stable comparator
b.priority - a.priority and takes element 0). -/
def pickBest (h : HandlerId) (t : List HandlerId) : HandlerId :=
  t.foldl (fun best x => if best.priority < x.priority then x else best) h

/-- getBestCompressionHandler (factory.ts): filter the registry by backend,
keep the handlers whose detect() is true, and pick the highest-priority one;
with distinguishable errors for an empty filter result and for zero available
shell tools. -/
def getBestCompressionHandler (env : ToolEnv) (backend : CompressionBackend) :
    Except SelectErr HandlerId :=
  let filtered := filterHandlersByBackend handlerRegistry backend
  if filtered = [] then
    .error .noHandlersForBackend
  else
    match filtered.filter (fun h => h.detect env) with
    | [] => if backend = .shell then .error .noShellTools else .error .noneAvailable
    | h :: t => .ok (pickBest h t)

/-- C4: under auto or native backend preference the selection never fails
(the native tar+gzip handler's detect() is unconditionally true), and under
shell preference with zero detected shell tools it fails with the
distinguishable no-shell-tool error. -/
theorem selection_totality (env : ToolEnv) :
    (∃ h, getBestCompressionHandler env .auto = .ok h) ∧
    (∃ h, getBestCompressionHandler env .native = .ok h) ∧
    (env.tarTool = false → env.zipTool = false → env.gzipTool = false →
      getBestCompressionHandler env .shell = .error .noShellTools) := by
  obtain ⟨t, z, g⟩ := env
  cases t <;> cases z <;> cases g <;>
    exact ⟨⟨.tarGzipNative, by decide⟩, ⟨.tarGzipNative, by decide⟩, by decide⟩

/-- Witness for selection_totality at the all-tools-absent environment. -/
theorem selection_totality_witness :
    (∃ h, getBestCompressionHandler ⟨false, false, false⟩ .auto = .ok h) ∧
    getBestCompressionHandler ⟨false, false, false⟩ .shell = .error .noShellTools :=
  ⟨(selection_totality ⟨false, false, false⟩).1,
   (selection_totality ⟨false, false, false⟩).2.2 rfl rfl rfl⟩

/-- C9: native-backend selection is a deterministic function of detection
results that in fact does not depend on them at all (every two detection
environments give the same selected handler), and the selected handler's
detect() is true. -/
theorem selection_native_deterministic (env env' : ToolEnv) :
    getBestCompressionHandler env .native = getBestCompressionHandler env' .native ∧
    (∃ h, getBestCompressionHandler env .native = .ok h ∧ h.detect env = true) := by
  obtain ⟨t, z, g⟩ := env
  obtain ⟨t', z', g'⟩ := env'
  cases t <;> cases z <;> cases g <;> cases t' <;> cases z' <;> cases g' <;>
    exact ⟨by decide, ⟨.tarGzipNative, by decide, by decide⟩⟩

/-- C10: under the default auto preference the selection always returns the
native tar+gzip handler (format TAR_GZIP, priority 200) whatever the outcome
of shell-tool detection, 200 being the strictly highest registry priority. -/
theorem selection_auto_constant (env : ToolEnv) :
    getBestCompressionHandler env .auto = .ok .tarGzipNative ∧
    HandlerId.format .tarGzipNative = .TAR_GZIP ∧
    HandlerId.priority .tarGzipNative = 200 ∧
    (∀ h ∈ handlerRegistry, h ≠ .tarGzipNative → h.priority < 200) := by
  obtain ⟨t, z, g⟩ := env
  cases t <;> cases z <;> cases g <;> exact ⟨by decide, rfl, rfl, by decide⟩

/-! ## Save phase: size guard (post.ts) -/

/-- Effect events of the save phase from the size check onward (post.ts lines
167-274): statSync on the temp archive, the approaching-limit warning, the
readFileSync into memory, the SETEX store write, the EXISTS verification, the
temp-file unlink in the finally block, and the client quit. -/
inductive SaveEvent
  | statTempFile
  | warnApproachingLimit
  | readTempFile
  | setexStore
  | existsCheck
  | unlinkTempFile
  | quitStore
deriving DecidableEq, Repr

/-- Result of the save phase slice after a successful compress. -/
inductive SaveResult
  | skippedTooLarge
  | uploaded (warned : Bool)
deriving DecidableEq, Repr

/-- The size guard of post.ts: maxCacheSizeBytes := maxCacheSize MB; when the
archive is larger the code logs and returns before reading the file (the
finally block still unlinks the temp file and quits the client); otherwise it
warns when the size exceeds 80 percent of the maximum (embedded exactly as
5 * size > 4 * maxBytes; the JS float multiplication by 0.8 agrees on these
integer ranges) and proceeds to read, upload and verify. -/
def saveSizeFlow (size maxMB : Nat) : List SaveEvent × SaveResult :=
  let maxBytes := maxMB * 1024 * 1024
  if size > maxBytes then
    ([.statTempFile, .unlinkTempFile, .quitStore], .skippedTooLarge)
  else
    let warned := 4 * maxBytes < 5 * size && size ≤ maxBytes
    ([.statTempFile] ++ (if warned then [.warnApproachingLimit] else []) ++
       [.readTempFile, .setexStore, .existsCheck, .unlinkTempFile, .quitStore],
     .uploaded warned)

/-- C3: an archive larger than the configured maximum is rejected by the stat
check before any read into memory, performs no store write, and the phase
returns normally; an archive over 80 percent of the maximum but at or under it
only triggers a warning and the upload still happens. -/
theorem save_size_guard (size maxMB : Nat) :
    (size > maxMB * 1024 * 1024 →
      saveSizeFlow size maxMB = ([.statTempFile, .unlinkTempFile, .quitStore], .skippedTooLarge) ∧
      SaveEvent.readTempFile ∉ (saveSizeFlow size maxMB).1 ∧
      SaveEvent.setexStore ∉ (saveSizeFlow size maxMB).1) ∧
    (4 * (maxMB * 1024 * 1024) < 5 * size → size ≤ maxMB * 1024 * 1024 →
      saveSizeFlow size maxMB =
        ([.statTempFile, .warnApproachingLimit, .readTempFile, .setexStore,
          .existsCheck, .unlinkTempFile, .quitStore], .uploaded true)) := by
  constructor
  · intro hbig
    have he : saveSizeFlow size maxMB =
        ([.statTempFile, .unlinkTempFile, .quitStore], .skippedTooLarge) := by
      simp [saveSizeFlow, hbig]
    refine ⟨he, ?_, ?_⟩ <;> · rw [he]; decide
  · intro hwarn hle
    have hnot : ¬ size > maxMB * 1024 * 1024 := not_lt.mpr hle
    simp only [saveSizeFlow, if_neg hnot]
    have hw : (4 * (maxMB * 1024 * 1024) < 5 * size && size ≤ maxMB * 1024 * 1024) = true := by
      simp [hwarn, hle]
    simp [hw]

/-- Witness for save_size_guard: a 15 MB archive against a 10 MB maximum is
skipped, and a 9 MB archive against a 10 MB maximum is uploaded with the
approaching-limit warning. -/
theorem save_size_guard_witness :
    saveSizeFlow 15728640 10 = ([.statTempFile, .unlinkTempFile, .quitStore], .skippedTooLarge) ∧
    saveSizeFlow 9437184 10 =
      ([.statTempFile, .warnApproachingLimit, .readTempFile, .setexStore,
        .existsCheck, .unlinkTempFile, .quitStore], .uploaded true) :=
  ⟨((save_size_guard 15728640 10).1 (by decide)).1,
   (save_size_guard 9437184 10).2 (by decide) (by decide)⟩

/-! ## Redis client: connection retry, quit on failure, error classification -/

/-- The retryStrategy of createRedisClient (redis/client.ts): null (stop) after
the third attempt, otherwise a capped linear delay min(times * 200, 2000) ms. -/
def retryDelay (times : Nat) : Option Nat :=
  if times > 3 then none else some (min (times * 200) 2000)

/-- Connection-level effect events of createRedisClient. -/
inductive ConnEvent
  | connectTry
  | pingCheck
  | quitConn
deriving DecidableEq, Repr

/-- createRedisClient after client construction: try connect and PING and
return the client, or on any failure quit the partial connection and rethrow
with the wrapped message. -/
def createClientFlow (outcome : Except Key Unit) : List ConnEvent × Except Key Unit :=
  match outcome with
  | .ok _ => ([.connectTry, .pingCheck], .ok ())
  | .error e =>
    ([.connectTry, .quitConn], .error (("Failed to connect to Redis: ").toList ++ e))

/-- Error causes distinguished by the save-phase catch block (post.ts lines
290-332) through substring inspection of the error message. -/
inductive ErrCause
  | refused
  | dnsFailure
  | authFailure
  | timeout
  | storeOom
  | verifyFailed
  | other
deriving DecidableEq, Repr

/-- Marker substring for a refused connection. -/
def tagRefused : Key := ("ECONNREFUSED").toList

/-- Marker substring for a DNS resolution failure. -/
def tagDns : Key := ("ENOTFOUND").toList

/-- Marker substring for an authentication failure (lower-case form). -/
def tagAuthWord : Key := ("authentication").toList

/-- Marker substring for an authentication failure (Redis NOAUTH reply). -/
def tagNoAuth : Key := ("NOAUTH").toList

/-- Marker substring for a connection timeout. -/
def tagTimeout : Key := ("ETIMEDOUT").toList

/-- Marker substring for a store out-of-memory error. -/
def tagOom : Key := ("OOM").toList

/-- Marker substring for a store out-of-memory error (long form). -/
def tagOomWords : Key := ("out of memory").toList

/-- Marker substring for the post-write verification failure. -/
def tagVerify : Key := ("Cache verification failed").toList

/-- The if/else-if substring classification of post.ts: ECONNREFUSED, then
ENOTFOUND, then authentication/NOAUTH, then ETIMEDOUT, then OOM/out-of-memory,
then the verification-failure marker. -/
def classifyErr (msg : Key) : ErrCause :=
  if containsSeq tagRefused msg then .refused
  else if containsSeq tagDns msg then .dnsFailure
  else if containsSeq tagAuthWord msg || containsSeq tagNoAuth msg then .authFailure
  else if containsSeq tagTimeout msg then .timeout
  else if containsSeq tagOom msg || containsSeq tagOomWords msg then .storeOom
  else if containsSeq tagVerify msg then .verifyFailed
  else .other

/-- C6: the client retries up to 3 attempts with delay min(attempt * 200 ms,
2000 ms) and refuses further retries afterwards; every connect failure quits
the partial connection before surfacing a wrapped connection error; and the
refused / DNS / auth / timeout causes are distinguished by substring
inspection of the lower-level error message. -/
theorem connect_retry_and_classification :
    (∀ t, 1 ≤ t → t ≤ 3 → retryDelay t = some (min (t * 200) 2000)) ∧
    (∀ t, t > 3 → retryDelay t = none) ∧
    (∀ e : Key, createClientFlow (.error e) =
      ([.connectTry, .quitConn], .error (("Failed to connect to Redis: ").toList ++ e)) ∧
      ConnEvent.quitConn ∈ (createClientFlow (.error e)).1) ∧
    (∀ msg : Key,
      (containsSeq tagRefused msg = true → classifyErr msg = .refused) ∧
      (containsSeq tagRefused msg = false →
        containsSeq tagDns msg = true → classifyErr msg = .dnsFailure) ∧
      (containsSeq tagRefused msg = false →
        containsSeq tagDns msg = false →
        containsSeq tagNoAuth msg = true → classifyErr msg = .authFailure) ∧
      (containsSeq tagRefused msg = false →
        containsSeq tagDns msg = false →
        containsSeq tagAuthWord msg = false →
        containsSeq tagNoAuth msg = false →
        containsSeq tagTimeout msg = true → classifyErr msg = .timeout)) := by
  refine ⟨?_, ?_, ?_, ?_⟩
  · intro t h1 h3
    have : ¬ t > 3 := not_lt.mpr h3
    simp [retryDelay, this]
  · intro t h
    simp [retryDelay, h]
  · intro e
    exact ⟨rfl, by simp [createClientFlow]⟩
  · intro msg
    refine ⟨?_, ?_, ?_, ?_⟩
    · intro h; simp [classifyErr, h]
    · intro h0 h1; simp [classifyErr, h0, h1]
    · intro h0 h1 h2; simp [classifyErr, h0, h1, h2]
    · intro h0 h1 h2 h3 h4; simp [classifyErr, h0, h1, h2, h3, h4]

/-- Witness for connect_retry_and_classification on concrete attempts and
canonical ioredis error strings, showing the four causes are distinguished. -/
theorem connect_retry_and_classification_witness :
    retryDelay 1 = some 200 ∧ retryDelay 3 = some 600 ∧ retryDelay 4 = none ∧
    ConnEvent.quitConn ∈ (createClientFlow (.error (("boom").toList))).1 ∧
    classifyErr (("connect ECONNREFUSED 10.0.0.1:6379").toList) = .refused ∧
    classifyErr (("getaddrinfo ENOTFOUND redis.invalid").toList) = .dnsFailure ∧
    classifyErr (("NOAUTH Authentication required.").toList) = .authFailure ∧
    classifyErr (("connect ETIMEDOUT").toList) = .timeout := by
  have h := connect_retry_and_classification
  refine ⟨?_, ?_, ?_, ?_, ?_, ?_, ?_, ?_⟩
  · exact h.1 1 (by decide) (by decide)
  · exact h.1 3 (by decide) (by decide)
  · exact h.2.1 4 (by decide)
  · exact (h.2.2.1 (("boom").toList)).2
  · exact (h.2.2.2 (("connect ECONNREFUSED 10.0.0.1:6379").toList)).1 (by decide)
  · exact (h.2.2.2 (("getaddrinfo ENOTFOUND redis.invalid").toList)).2.1 (by decide) (by decide)
  · exact (h.2.2.2 (("NOAUTH Authentication required.").toList)).2.2.1
      (by decide) (by decide) (by decide)
  · exact (h.2.2.2 (("connect ETIMEDOUT").toList)).2.2.2
      (by decide) (by decide) (by decide) (by decide) (by decide)

/-! ## Inter-phase state: what restore saves versus what save reads -/

/-- The state keys written with core.saveState by the restore phase on a MISS
(main, lines 162-169): cache key, path patterns, store host, port, password,
ttl and compression level. -/
def savedStateKeys : List Key :=
  [("cache-key").toList, ("cache-paths").toList, ("redis-host").toList,
   ("redis-port").toList, ("redis-password").toList, ("ttl").toList,
   ("compression").toList]

/-- The state keys read with core.getState by the save phase (post.ts lines
17-27): the seven restore-phase keys plus the compression backend preference
and the maximum cache size. -/
def readStateKeys : List Key :=
  [("cache-key").toList, ("cache-paths").toList, ("redis-host").toList,
   ("redis-port").toList, ("redis-password").toList, ("ttl").toList,
   ("compression").toList, ("compression-backend").toList,
   ("max-cache-size").toList]

/-- The save phase's backend default: an absent compression-backend state value
(the empty string) falls back to auto (post.ts lines 25-26). -/
def effectiveBackendState (s : Key) : Key :=
  if s = [] then ("auto").toList else s

/-- C8 counterexample: the save phase reads the compression-backend and
max-cache-size state keys, but the restore phase's MISS branch never persists
them, so the persisted state does not include every field the save phase
reads. -/
theorem state_keys_counterexample :
    ("compression-backend").toList ∈ readStateKeys ∧
    ("compression-backend").toList ∉ savedStateKeys ∧
    ("max-cache-size").toList ∈ readStateKeys ∧
    ("max-cache-size").toList ∉ savedStateKeys := by
  decide

/-- C8 amended: the restore phase persists exactly key, path patterns, store
host, port, password, ttl and compression level; each persisted key is read
back by the save phase, but the backend preference and the maximum cache size
are read without having been persisted, the backend defaulting to auto. -/
theorem state_keys_amended :
    (∀ k ∈ savedStateKeys, k ∈ readStateKeys) ∧
    readStateKeys.filter (fun k => !(savedStateKeys.contains k)) =
      [("compression-backend").toList, ("max-cache-size").toList] ∧
    effectiveBackendState [] = ("auto").toList := by
  decide

/-! ## Restore phase: extraction on a cache hit -/

/-- Effect events of the restore phase's hit branch (main, lines 121-152). -/
inductive RestoreEvent
  | selectHandlerViaFactory
  | writeTempFile
  | callExtractTarball (target : Key)
  | unlinkTempFile
  | setOutputs (cacheHit : Bool) (matchedKey : Key)
deriving DecidableEq, Repr

/-- The extraction target hard-coded by the restore phase: the filesystem
root. -/
def rootTarget : Key := ("/").toList

/-- The restore phase's hit branch: write the fetched bytes to the temp file,
call extractTarball on it with target '/', unlink the temp file in the finally
block on both exits, and set the cache-hit and cache-matched-key outputs only
after a successful extraction (a failure propagates to the outer catch). -/
def restoreOnHit (cacheHit : Bool) (matchedKey : Key)
    (extractOutcome : Except Key Unit) : List RestoreEvent × Except Key Unit :=
  match extractOutcome with
  | .ok _ =>
    ([.writeTempFile, .callExtractTarball rootTarget, .unlinkTempFile,
      .setOutputs cacheHit matchedKey], .ok ())
  | .error e =>
    ([.writeTempFile, .callExtractTarball rootTarget, .unlinkTempFile], .error e)

/-- C7 counterexample: in the restore phase's hit branch no compression
handler is selected through the factory and the extraction targets the
filesystem root, not the working directory: on a concrete hit the trace has no
factory-selection event and its extraction target differs from a concrete
working directory. -/
theorem restore_hit_counterexample :
    (RestoreEvent.selectHandlerViaFactory ∉
      (restoreOnHit false (("linux-build").toList) (.ok ())).1) ∧
    RestoreEvent.callExtractTarball rootTarget ∈
      (restoreOnHit false (("linux-build").toList) (.ok ())).1 ∧
    rootTarget ≠ ("/home/runner/work").toList := by
  decide

/-- C7 amended: on every cache hit the fetched bytes are written to a
temporary file, extractTarball (the shell tar utility, not a factory-selected
handler) is invoked targeting the filesystem root, and the temporary file is
deleted on every exit path, even when extraction fails, in which case the
extraction error propagates. -/
theorem restore_hit_cleanup (cacheHit : Bool) (matchedKey : Key) :
    restoreOnHit cacheHit matchedKey (.ok ()) =
      ([.writeTempFile, .callExtractTarball rootTarget, .unlinkTempFile,
        .setOutputs cacheHit matchedKey], .ok ()) ∧
    (∀ e : Key, restoreOnHit cacheHit matchedKey (.error e) =
      ([.writeTempFile, .callExtractTarball rootTarget, .unlinkTempFile], .error e)) ∧
    (∀ outcome : Except Key Unit,
      RestoreEvent.unlinkTempFile ∈ (restoreOnHit cacheHit matchedKey outcome).1) := by
  refine ⟨rfl, fun e => rfl, fun outcome => ?_⟩
  cases outcome <;> simp [restoreOnHit]

/-! ## Format handlers: compress failure cleanup and extract guard -/

/-- A flat filesystem abstraction: the list of existing paths. -/
abbrev FileSys := List Key

/-- The wrapped message the shell tar+gzip handler throws when the underlying
error indicates a missing tar binary (tar-gzip.ts lines 100-109); other
errors are rethrown unchanged. -/
def tarShellWrap (err : Key) : Key :=
  if containsSeq (("command not found").toList) err ||
     containsSeq (("ENOENT").toList) err ||
     containsSeq (("not recognized").toList) err then
    ("tar command not found - please install tar utility or use a different compression format").toList
  else err

/-- The native handlers in the sources whose compress has the
delete-partial-archive catch block. -/
def nativeCompressors : List HandlerId := [.tarGzipNative, .zipNative, .lz4Native]

/-- Failure path of each handler's compress, applied to the filesystem as it
stands when the failure is raised (the partially written output may exist).
The native handlers (tar-gzip-native.ts 80-86, zip-native.ts 113-119,
lz4-native 272-278) unlink the output file if it exists before rethrowing;
the shell tar+gzip handler (tar-gzip.ts 97-118) only unlinks its file-list
temp file in the finally block; the shell zip and gzip handlers rethrow with
no cleanup at all. -/
def compressFailCleanup (h : HandlerId) (fs : FileSys) (outputFile fileList err : Key) :
    FileSys × Except Key Unit :=
  match h with
  | .tarGzipNative => (fs.filter (fun p => !(p == outputFile)), .error err)
  | .zipNative => (fs.filter (fun p => !(p == outputFile)), .error err)
  | .lz4Native => (fs.filter (fun p => !(p == outputFile)), .error err)
  | .gzipNative => (fs.filter (fun p => !(p == outputFile)), .error err)
  | .tarGzipShell => (fs.filter (fun p => !(p == fileList)), .error (tarShellWrap err))
  | .zipShell => (fs, .error err)
  | .gzipShell => (fs, .error err)

/-- C2 counterexample: the shell tar+gzip handler's compress leaves the
partially written archive on disk while propagating the failure — at a
concrete failing run with the partial output present, the post-failure
filesystem still contains the output file. -/
theorem compress_cleanup_counterexample :
    ("/tmp/cache-1.tar.gz").toList ∈
      (compressFailCleanup .tarGzipShell
        [("/tmp/cache-1.tar.gz").toList, ("/tmp/file-list.txt").toList]
        (("/tmp/cache-1.tar.gz").toList) (("/tmp/file-list.txt").toList)
        (("tar command failed with exit code 2: disk error").toList)).1 ∧
    (compressFailCleanup .tarGzipShell
        [("/tmp/cache-1.tar.gz").toList, ("/tmp/file-list.txt").toList]
        (("/tmp/cache-1.tar.gz").toList) (("/tmp/file-list.txt").toList)
        (("tar command failed with exit code 2: disk error").toList)).2 =
      .error (("tar command failed with exit code 2: disk error").toList) := by
  decide

/-- C2 amended: the native compress variants delete the partially written
output file before propagating a mid-archive failure, so no partial archive
survives a failing native run; the shell tar+gzip variant removes only its
file-list temp file and leaves the partial archive behind. -/
theorem compress_cleanup_native (fs : FileSys) (outputFile fileList err : Key) :
    (∀ h ∈ nativeCompressors,
      outputFile ∉ (compressFailCleanup h fs outputFile fileList err).1 ∧
      (compressFailCleanup h fs outputFile fileList err).2 = .error err) ∧
    (outputFile ∈ fs → outputFile ≠ fileList →
      outputFile ∈ (compressFailCleanup .tarGzipShell fs outputFile fileList err).1) := by
  constructor
  · intro h hmem
    have hdel : outputFile ∉ fs.filter (fun p => !(p == outputFile)) := by
      simp [List.mem_filter]
    fin_cases hmem <;> exact ⟨hdel, rfl⟩
  · intro hmem hne
    simp [compressFailCleanup, List.mem_filter, hmem, hne]

/-- Witness for compress_cleanup_native at a concrete failing run. -/
theorem compress_cleanup_native_witness :
    ("/tmp/cache-2.tar.gz").toList ∉
      (compressFailCleanup .tarGzipNative
        [("/tmp/cache-2.tar.gz").toList] (("/tmp/cache-2.tar.gz").toList)
        (("/tmp/file-list.txt").toList) (("stream error").toList)).1 ∧
    ("/tmp/cache-2.tar.gz").toList ∈
      (compressFailCleanup .tarGzipShell
        [("/tmp/cache-2.tar.gz").toList] (("/tmp/cache-2.tar.gz").toList)
        (("/tmp/file-list.txt").toList) (("stream error").toList)).1 :=
  ⟨((compress_cleanup_native [("/tmp/cache-2.tar.gz").toList]
      (("/tmp/cache-2.tar.gz").toList) (("/tmp/file-list.txt").toList)
      (("stream error").toList)).1 .tarGzipNative (by decide)).1,
   (compress_cleanup_native [("/tmp/cache-2.tar.gz").toList]
      (("/tmp/cache-2.tar.gz").toList) (("/tmp/file-list.txt").toList)
      (("stream error").toList)).2 (by decide) (by decide)⟩

/-- Decompression and extraction effect events of the handlers' extract. -/
inductive ExtractEvent
  | mkdirTarget (dir : Key)
  | gunzipStreamDecompress
  | unzipStreamDecompress
  | lz4Decompress
  | execTarExtract
  | execUnzip
  | execGunzip
  | writeEntries
deriving DecidableEq, Repr

/-- Each handler's extract: all variants first stat the archive and throw the
not-found error when it is missing, leaving the filesystem untouched
(tar-gzip-native.ts 173-179, tar-gzip.ts 125-131, zip-native.ts 126-132, and
likewise the shell zip, shell gzip and lz4 variants); only then do they create
the target directory (native variants) and decompress.  The post-guard
success path is abstracted to its event markers, since the claims below
concern only the guard. -/
def extractFlow (h : HandlerId) (fs : FileSys) (archive target : Key) :
    List ExtractEvent × Except Key Unit :=
  if archive ∉ fs then
    ([], .error (("Archive file not found: ").toList ++ archive))
  else
    match h with
    | .tarGzipNative => ([.mkdirTarget target, .gunzipStreamDecompress, .writeEntries], .ok ())
    | .gzipNative => ([.mkdirTarget target, .gunzipStreamDecompress, .writeEntries], .ok ())
    | .zipNative => ([.mkdirTarget target, .unzipStreamDecompress, .writeEntries], .ok ())
    | .lz4Native => ([.mkdirTarget target, .lz4Decompress, .writeEntries], .ok ())
    | .tarGzipShell => ([.execTarExtract], .ok ())
    | .zipShell => ([.execUnzip], .ok ())
    | .gzipShell => ([.execGunzip, .execTarExtract], .ok ())

/-- C5: for every handler variant and target directory, extract on a missing
archive fails immediately with the not-found error, with no decompression
attempted and no change to the target directory (the event trace is empty). -/
theorem extract_missing_archive (h : HandlerId) (fs : FileSys) (archive target : Key)
    (hmiss : archive ∉ fs) :
    extractFlow h fs archive target =
      ([], .error (("Archive file not found: ").toList ++ archive)) := by
  simp [extractFlow, hmiss]

/-- Witness for extract_missing_archive at a concrete missing archive. -/
theorem extract_missing_archive_witness :
    extractFlow .zipNative [] (("/tmp/none.zip").toList) (("/work").toList) =
      ([], .error (("Archive file not found: ").toList ++ ("/tmp/none.zip").toList)) :=
  extract_missing_archive .zipNative [] (("/tmp/none.zip").toList) (("/work").toList)
    (by decide)

/-! ## Restore phase: exact lookup and restore-key fallback -/

/-- The key-value store: an association list from full (scoped) keys to blob
identifiers standing for the cached archive bytes. -/
abbrev Store := List (Key × Nat)

/-- GET on the store (redis.getBuffer): first binding wins. -/
def storeGet : Store → Key → Option Nat
  | [], _ => none
  | (k, v) :: rest, q => if k = q then some v else storeGet rest q

/-- getCacheKey: scope a base key with the repository identity,
repo ++ ':' ++ base. -/
def scopeKey (repo base : Key) : Key := repo ++ ':' :: base

/-- Drop a trailing star from a restore key, if present.  The restore loop
builds the SCAN pattern as the scoped key when the restore key already ends in
a star, and as the scoped key plus a star otherwise; in both cases the pattern
is the text before the star followed by the wildcard. -/
def stripStar (k : Key) : Key := if k.getLast? = some '*' then k.dropLast else k

/-- The text before the wildcard of the SCAN pattern built for a restore key:
the scoped restore key with any trailing star removed. -/
def scanStem (repo rk : Key) : Key := scopeKey repo (stripStar rk)

/-- scanKeys with a trailing-star pattern: all store keys that begin with the
stem.  (Redis MATCH is a general glob; the restore loop only ever builds
patterns whose single wildcard is the trailing star, for which MATCH is
exactly this initial-segment test.) -/
def storeScan (store : Store) (stem : Key) : List Key :=
  (store.map Prod.fst).filter (fun k => keyLeads stem k)

/-- Lexicographic strict order on keys, the order of the JS default string
sort used by matchingKeys.sort().reverse(). -/
def keyLt : Key → Key → Bool
  | _, [] => false
  | [], _ :: _ => true
  | a :: as, b :: bs => if a < b then true else if b < a then false else keyLt as bs

/-- One step of the maximum fold: keep the later key when it is greater. -/
def latestStep (best x : Key) : Key := if keyLt best x then x else best

/-- The head of sort().reverse(): the lexicographically greatest key of the
list (the empty key for an empty list). -/
def latestKeyOf : List Key → Key
  | [] => []
  | k :: ks => ks.foldl latestStep k

/-- JS latestKey.split(':') — split a key at every colon. -/
def splitColonAux : Key → Key → List Key
  | [], acc => [acc.reverse]
  | c :: cs, acc =>
    if c = ':' then acc.reverse :: splitColonAux cs [] else splitColonAux cs (c :: acc)

/-- Split a key at every colon, as JS String.prototype.split(':'). -/
def splitColon (k : Key) : List Key := splitColonAux k []

/-- JS Array.prototype.join(':'). -/
def joinColon : List Key → Key
  | [] => []
  | [s] => s
  | s :: t :: rest => s ++ ':' :: joinColon (t :: rest)

/-- The restore loop's un-scoping of a matched key:
latestKey.split(':').slice(1).join(':'). -/
def unscopeKey (k : Key) : Key := joinColon ((splitColon k).drop 1)

/-- The restore-key fallback loop (main, lines 85-113): for each restore key
in caller order, scan for the pattern; on a non-empty match sort descending,
take the first, fetch it, and stop on a successful fetch; otherwise continue
with the next restore key. -/
def tryRestoreKeys (store : Store) (repo : Key) : List Key → Option (Key × Nat)
  | [] => none
  | rk :: rest =>
    let matching := storeScan store (scanStem repo rk)
    if matching = [] then tryRestoreKeys store repo rest
    else
      match storeGet store (latestKeyOf matching) with
      | some v => some (latestKeyOf matching, v)
      | none => tryRestoreKeys store repo rest

/-- Outcome of the restore lookup, with the cache-hit flag and matched-key
string reported as outputs. -/
inductive LookupOutcome
  | hit (data : Nat) (cacheHit : Bool) (matchedKey : Key)
  | miss
deriving DecidableEq, Repr

/-- The restore phase's lookup (main, lines 62-119): exact GET on the scoped
key first (an exact hit reports cacheHit = true and the requested key),
otherwise the restore-key fallback loop (a fallback hit reports
cacheHit = false and the un-scoped matched key), otherwise MISS. -/
def restoreLookup (store : Store) (repo key : Key) (restoreKeys : List Key) :
    LookupOutcome :=
  match storeGet store (scopeKey repo key) with
  | some v => .hit v true key
  | none =>
    match tryRestoreKeys store repo restoreKeys with
    | some (latest, v) => .hit v false (unscopeKey latest)
    | none => .miss

theorem keyLt_irrefl (k : Key) : keyLt k k = false := by
  induction k with
  | nil => rfl
  | cons a t ih => simp [keyLt, ih]

theorem keyLt_trans : ∀ (a b c : Key),
    keyLt a b = true → keyLt b c = true → keyLt a c = true
  | [], _ :: _, _ :: _, _, _ => rfl
  | [], [], _, hab, _ => by simp [keyLt] at hab
  | _ :: _, [], _, hab, _ => by simp [keyLt] at hab
  | [], _ :: _, [], _, hbc => by simp [keyLt] at hbc
  | _ :: _, _ :: _, [], _, hbc => by simp [keyLt] at hbc
  | a :: as, b :: bs, c :: cs, hab, hbc => by
    simp only [keyLt] at hab hbc ⊢
    rcases lt_trichotomy a b with h1 | h1 | h1
    · rcases lt_trichotomy b c with h2 | h2 | h2
      · simp [lt_trans h1 h2]
      · subst h2; simp [h1]
      · rw [if_neg (by exact fun hbc' => absurd h2 (not_lt_of_gt hbc')),
            if_pos h2] at hbc
        exact absurd hbc (by simp)
    · subst h1
      rw [if_neg (lt_irrefl a), if_neg (lt_irrefl a)] at hab
      rcases lt_trichotomy a c with h2 | h2 | h2
      · simp [h2]
      · subst h2
        rw [if_neg (lt_irrefl a), if_neg (lt_irrefl a)] at hbc ⊢
        exact keyLt_trans as bs cs hab hbc
      · rw [if_neg (by exact fun h => absurd h2 (not_lt_of_gt h)), if_pos h2] at hbc
        exact absurd hbc (by simp)
    · rw [if_neg (by exact fun h => absurd h1 (not_lt_of_gt h)), if_pos h1] at hab
      exact absurd hab (by simp)

theorem keyLt_conn (a b : Key) (hab : keyLt a b = false) (hba : keyLt b a = false) :
    a = b := by
  induction a generalizing b with
  | nil => cases b with
    | nil => rfl
    | cons x xs => simp [keyLt] at hab
  | cons x xs ih =>
    cases b with
    | nil => simp [keyLt] at hba
    | cons y ys =>
      simp only [keyLt] at hab hba
      rcases lt_trichotomy x y with h | h | h
      · rw [if_pos h] at hab; exact absurd hab (by simp)
      · subst h
        rw [if_neg (lt_irrefl x), if_neg (lt_irrefl x)] at hab hba
        rw [ih ys hab hba]
      · rw [if_pos h] at hba; exact absurd hba (by simp)

theorem latestFold_mem : ∀ (xs : List Key) (best : Key),
    xs.foldl latestStep best = best ∨ xs.foldl latestStep best ∈ xs := by
  intro xs
  induction xs with
  | nil => intro best; exact .inl rfl
  | cons x t ih =>
    intro best
    rcases ih (latestStep best x) with h | h
    · rw [List.foldl_cons, h]
      by_cases hk : keyLt best x = true
      · right; simp [latestStep, hk]
      · left; simp [latestStep, hk]
    · right
      rw [List.foldl_cons]
      exact List.mem_cons_of_mem x h

theorem keyLt_asymm (a b : Key) (h : keyLt a b = true) : keyLt b a = false := by
  rcases Bool.eq_false_or_eq_true (keyLt b a) with hb | hb
  · have := keyLt_trans a b a h hb
    rw [keyLt_irrefl] at this
    exact absurd this (by simp)
  · exact hb

theorem keyLt_le_trans (r b z : Key) (h1 : keyLt r b = false) (h2 : keyLt b z = false) :
    keyLt r z = false := by
  rcases Bool.eq_false_or_eq_true (keyLt r z) with hr | hr
  · rcases Bool.eq_false_or_eq_true (keyLt z b) with hz | hz
    · have := keyLt_trans r z b hr hz
      rw [this] at h1
      exact absurd h1 (by simp)
    · have := keyLt_conn b z h2 hz
      subst this
      rw [hr] at h1
      exact absurd h1 (by simp)
  · exact hr

theorem latestFold_dom : ∀ (xs : List Key) (best x : Key),
    (x = best ∨ x ∈ xs) → keyLt (xs.foldl latestStep best) x = false := by
  intro xs
  induction xs with
  | nil =>
    intro best x hx
    rcases hx with h | h
    · subst h; exact keyLt_irrefl x
    · simp at h
  | cons y t ih =>
    intro best x hx
    rw [List.foldl_cons]
    have hstep : keyLt (t.foldl latestStep (latestStep best y)) (latestStep best y) = false :=
      ih (latestStep best y) (latestStep best y) (.inl rfl)
    have hbase : keyLt (latestStep best y) best = false := by
      by_cases hk : keyLt best y = true
      · simp only [latestStep, if_pos hk]
        exact keyLt_asymm best y hk
      · simp only [latestStep, if_neg hk]
        exact keyLt_irrefl best
    have hhead : keyLt (latestStep best y) y = false := by
      by_cases hk : keyLt best y = true
      · simp only [latestStep, if_pos hk]
        exact keyLt_irrefl y
      · simp only [latestStep, if_neg hk]
        simpa using hk
    rcases hx with h | h
    · subst h
      exact keyLt_le_trans _ _ _ hstep hbase
    · rcases List.mem_cons.mp h with h | h
      · subst h
        exact keyLt_le_trans _ _ _ hstep hhead
      · exact ih (latestStep best y) x (.inr h)

theorem latest_mem (k : Key) (ks : List Key) : latestKeyOf (k :: ks) ∈ k :: ks := by
  rcases latestFold_mem ks k with h | h
  · rw [latestKeyOf, h]; exact List.mem_cons_self k ks
  · exact List.mem_cons_of_mem k h

theorem latest_dom (k : Key) (ks : List Key) :
    ∀ x ∈ k :: ks, keyLt (latestKeyOf (k :: ks)) x = false := by
  intro x hx
  rcases List.mem_cons.mp hx with h | h
  · exact latestFold_dom ks k x (.inl h)
  · exact latestFold_dom ks k x (.inr h)

theorem splitColonAux_ne_nil : ∀ (k acc : Key), splitColonAux k acc ≠ [] := by
  intro k
  induction k with
  | nil => intro acc; simp [splitColonAux]
  | cons c cs ih =>
    intro acc
    by_cases hc : c = ':'
    · simp [splitColonAux, hc]
    · simpa [splitColonAux, hc] using ih (c :: acc)

theorem joinColon_cons (s : Key) (rest : List Key) (h : rest ≠ []) :
    joinColon (s :: rest) = s ++ ':' :: joinColon rest := by
  cases rest with
  | nil => exact absurd rfl h
  | cons t r => rfl

theorem joinColon_splitColonAux : ∀ (k acc : Key),
    joinColon (splitColonAux k acc) = acc.reverse ++ k := by
  intro k
  induction k with
  | nil => intro acc; simp [splitColonAux, joinColon]
  | cons c cs ih =>
    intro acc
    by_cases hc : c = ':'
    · rw [splitColonAux, if_pos hc,
        joinColon_cons _ _ (splitColonAux_ne_nil cs []), ih []]
      simp [hc]
    · rw [splitColonAux, if_neg hc, ih (c :: acc)]
      simp

theorem splitColonAux_scoped : ∀ (repo acc u : Key), (∀ c ∈ repo, c ≠ ':') →
    splitColonAux (repo ++ ':' :: u) acc = (acc.reverse ++ repo) :: splitColon u := by
  intro repo
  induction repo with
  | nil => intro acc u _; simp [splitColonAux, splitColon]
  | cons c cs ih =>
    intro acc u hr
    have hc : c ≠ ':' := hr c (List.mem_cons_self c cs)
    have hcs : ∀ x ∈ cs, x ≠ ':' := fun x hx => hr x (List.mem_cons_of_mem c hx)
    rw [List.cons_append, splitColonAux, if_neg hc, ih (c :: acc) u hcs]
    simp

theorem unscope_scoped (repo u : Key) (h : ∀ c ∈ repo, c ≠ ':') :
    unscopeKey (repo ++ ':' :: u) = u := by
  rw [unscopeKey, splitColon, splitColonAux_scoped repo [] u h]
  have : joinColon (splitColon u) = u := by
    rw [splitColon, joinColon_splitColonAux u []]
    simp
  simpa [splitColon] using this

theorem keyLeads_append : ∀ (p k : Key), keyLeads p k = true → ∃ t, k = p ++ t := by
  intro p
  induction p with
  | nil => intro k _; exact ⟨k, rfl⟩
  | cons a as ih =>
    intro k h
    cases k with
    | nil => simp [keyLeads] at h
    | cons b bs =>
      simp only [keyLeads, Bool.and_eq_true, decide_eq_true_eq] at h
      obtain ⟨hab, htail⟩ := h
      obtain ⟨t, ht⟩ := ih bs htail
      exact ⟨t, by rw [hab, ht]; rfl⟩

theorem storeGet_of_mem_keys : ∀ (store : Store) (k : Key),
    k ∈ store.map Prod.fst → ∃ v, storeGet store k = some v := by
  intro store
  induction store with
  | nil => intro k h; simp at h
  | cons p rest ih =>
    intro k h
    obtain ⟨a, b⟩ := p
    by_cases hk : a = k
    · exact ⟨b, by simp only [storeGet]; rw [if_pos hk]⟩
    · have : k ∈ rest.map Prod.fst := by
        rcases List.mem_map.mp h with ⟨q, hq, hq1⟩
        rcases List.mem_cons.mp hq with hq' | hq'
        · rw [hq'] at hq1
          exact absurd hq1 hk
        · exact List.mem_map.mpr ⟨q, hq', hq1⟩
      obtain ⟨v, hv⟩ := ih k this
      exact ⟨v, by simp only [storeGet]; rw [if_neg hk]; exact hv⟩

theorem storeScan_sub (store : Store) (stem : Key) :
    ∀ k ∈ storeScan store stem, k ∈ store.map Prod.fst ∧ keyLeads stem k = true := by
  intro k hk
  exact List.mem_filter.mp hk

theorem tryRestoreKeys_skip (store : Store) (repo : Key) (skipped rest : List Key)
    (h : ∀ p ∈ skipped, storeScan store (scanStem repo p) = []) :
    tryRestoreKeys store repo (skipped ++ rest) = tryRestoreKeys store repo rest := by
  induction skipped with
  | nil => rfl
  | cons p t ih =>
    have hp : storeScan store (scanStem repo p) = [] := h p (List.mem_cons_self p t)
    have ht : ∀ q ∈ t, storeScan store (scanStem repo q) = [] :=
      fun q hq => h q (List.mem_cons_of_mem p hq)
    rw [List.cons_append, tryRestoreKeys]
    simp only [hp, if_pos rfl]
    exact ih ht

theorem tryRestoreKeys_hit (store : Store) (repo rk : Key) (rest : List Key)
    (hhit : storeScan store (scanStem repo rk) ≠ []) :
    ∃ v, storeGet store (latestKeyOf (storeScan store (scanStem repo rk))) = some v ∧
      tryRestoreKeys store repo (rk :: rest) =
        some (latestKeyOf (storeScan store (scanStem repo rk)), v) := by
  have hmem : latestKeyOf (storeScan store (scanStem repo rk)) ∈
      storeScan store (scanStem repo rk) := by
    rcases hx : storeScan store (scanStem repo rk) with _ | ⟨k, ks⟩
    · exact absurd hx hhit
    · exact latest_mem k ks
  have hkeys := (storeScan_sub store (scanStem repo rk) _ hmem).1
  obtain ⟨v, hv⟩ := storeGet_of_mem_keys store _ hkeys
  refine ⟨v, hv, ?_⟩
  rw [tryRestoreKeys]
  simp only [if_neg hhit, hv]

/-- C1: on an exact-key miss, the restore-key patterns are tried in caller
order and the first pattern whose scan matches stops the search; the matched
keys are ordered lexicographically descending and the greatest is fetched;
the outcome is a fallback hit whose cache-hit flag is false and whose
matched-key output is the original un-scoped key of the fetched entry
(scoping it again gives back the fetched store key). -/
theorem restore_fallback (store : Store) (repo key : Key)
    (skipped : List Key) (rk : Key) (rest : List Key)
    (hrepo : ∀ c ∈ repo, c ≠ ':')
    (hmiss : storeGet store (scopeKey repo key) = none)
    (hskip : ∀ p ∈ skipped, storeScan store (scanStem repo p) = [])
    (hhit : storeScan store (scanStem repo rk) ≠ []) :
    ∃ v,
      storeGet store (latestKeyOf (storeScan store (scanStem repo rk))) = some v ∧
      restoreLookup store repo key (skipped ++ rk :: rest) =
        .hit v false (unscopeKey (latestKeyOf (storeScan store (scanStem repo rk)))) ∧
      latestKeyOf (storeScan store (scanStem repo rk)) ∈
        storeScan store (scanStem repo rk) ∧
      (∀ k ∈ storeScan store (scanStem repo rk),
        keyLt (latestKeyOf (storeScan store (scanStem repo rk))) k = false) ∧
      scopeKey repo (unscopeKey (latestKeyOf (storeScan store (scanStem repo rk)))) =
        latestKeyOf (storeScan store (scanStem repo rk)) := by
  obtain ⟨v, hv, htry⟩ := tryRestoreKeys_hit store repo rk rest hhit
  have hmem : latestKeyOf (storeScan store (scanStem repo rk)) ∈
      storeScan store (scanStem repo rk) := by
    rcases hx : storeScan store (scanStem repo rk) with _ | ⟨k, ks⟩
    · exact absurd hx hhit
    · exact latest_mem k ks
  have hdom : ∀ k ∈ storeScan store (scanStem repo rk),
      keyLt (latestKeyOf (storeScan store (scanStem repo rk))) k = false := by
    rcases hx : storeScan store (scanStem repo rk) with _ | ⟨k, ks⟩
    · exact absurd hx hhit
    · intro x hxm
      exact latest_dom k ks x hxm
  have hscope : scopeKey repo
      (unscopeKey (latestKeyOf (storeScan store (scanStem repo rk)))) =
      latestKeyOf (storeScan store (scanStem repo rk)) := by
    have hlead := (storeScan_sub store (scanStem repo rk) _ hmem).2
    obtain ⟨t, ht⟩ := keyLeads_append _ _ hlead
    have hshape : latestKeyOf (storeScan store (scanStem repo rk)) =
        repo ++ ':' :: (stripStar rk ++ t) := by
      rw [ht]
      simp [scanStem, scopeKey]
    rw [hshape, unscope_scoped repo (stripStar rk ++ t) hrepo]
    rfl
  refine ⟨v, hv, ?_, hmem, hdom, hscope⟩
  rw [restoreLookup, hmiss, tryRestoreKeys_skip store repo skipped (rk :: rest) hskip, htry]

/-- A concrete store for the fallback witness: two entries under the second
restore key's stem, none under the first or under the exact key. -/
def demoStore : Store :=
  [((("acme/widgets:linux-b-2023").toList), 5),
   ((("acme/widgets:linux-b-2024").toList), 7)]

/-- Witness for restore_fallback: two restore keys where only the second has
matches; the fallback hit comes from the second pattern's lexicographically
greatest match, cacheHit is false, and the matched key is the un-scoped store
key. -/
theorem restore_fallback_witness :
    ∃ v,
      storeGet demoStore (latestKeyOf (storeScan demoStore
        (scanStem (("acme/widgets").toList) (("linux-b").toList)))) = some v ∧
      restoreLookup demoStore (("acme/widgets").toList) (("linux-x").toList)
        [("linux-a").toList, ("linux-b").toList] =
        .hit v false (unscopeKey (latestKeyOf (storeScan demoStore
          (scanStem (("acme/widgets").toList) (("linux-b").toList))))) ∧
      latestKeyOf (storeScan demoStore
        (scanStem (("acme/widgets").toList) (("linux-b").toList))) ∈
        storeScan demoStore (scanStem (("acme/widgets").toList) (("linux-b").toList)) ∧
      (∀ k ∈ storeScan demoStore
        (scanStem (("acme/widgets").toList) (("linux-b").toList)),
        keyLt (latestKeyOf (storeScan demoStore
          (scanStem (("acme/widgets").toList) (("linux-b").toList)))) k = false) ∧
      scopeKey (("acme/widgets").toList)
        (unscopeKey (latestKeyOf (storeScan demoStore
          (scanStem (("acme/widgets").toList) (("linux-b").toList))))) =
        latestKeyOf (storeScan demoStore
          (scanStem (("acme/widgets").toList) (("linux-b").toList))) :=
  restore_fallback demoStore (("acme/widgets").toList) (("linux-x").toList)
    [("linux-a").toList] (("linux-b").toList) []
    (by decide) (by decide) (by decide) (by decide)

end RedisCache
